import Mathlib

/-!
Verification of the instrument-control core of the `eelab` tool suite
(`eelib.py`, `bodeplot.py`, `autoscale.py`, `curvetracer.py`).

The Python code is shallowly embedded: Python floats are modelled as exact
rationals (`ℚ`), Python's `%`, `round`, `abs` and f-string formatting of
floats are modelled by executable Lean functions, device query responses are
modelled by an `Echo` type (a response either matches the query's regular
expression, carrying the text captured by its group, or does not), and
`sys.exit` / uncaught exceptions are modelled with `Except` / `Option`
results.
-/

deriving instance DecidableEq for Except

namespace Eelib

/-- Python's float modulo `x % m`: for `m > 0` the result is
`x - m * floor(x / m)`, lying in `[0, m)`. -/
def pymod (x m : ℚ) : ℚ := x - m * ⌊x / m⌋

/-- Embeds `norm_angle` (eelib.py lines 16-23; the identical copy is in
bodeplot.py lines 30-37): `x = x % 360`, then subtract 360 if `x >= 180`,
else add 360 if `x < -180`. -/
def norm_angle (x : ℚ) : ℚ :=
  let y := pymod x 360
  if 180 ≤ y then y - 360
  else if y < -180 then y + 360
  else y

/-- Python 3's built-in `round` to an integer: round half to even. -/
def pyRound (x : ℚ) : ℤ :=
  let n := ⌊x⌋
  let r := x - n
  if r < 1/2 then n
  else if 1/2 < r then n + 1
  else if n % 2 = 0 then n else n + 1

/-- Embeds `step` (bodeplot.py lines 39-42):
`round((10 ** floor(log10(f))) / quality)`.  `Int.log 10 f` is the exact
value of `math.floor(math.log10(f))` for `f > 0`. -/
def step (f q : ℚ) : ℤ := pyRound ((10 : ℚ) ^ (Int.log 10 f) / q)

/-- Decimal digits of a natural number, most significant first (fuel-based). -/
def natDigitsGo : ℕ → ℕ → List ℕ
  | 0, _ => []
  | fuel + 1, n => if n < 10 then [n] else natDigitsGo fuel (n / 10) ++ [n % 10]

/-- Python's `str` of a nonnegative integer. -/
def natToStr (n : ℕ) : String := ⟨(natDigitsGo (n + 1) n).map (fun d => Char.ofNat (48 + d))⟩

/-- Decimal digits of the fractional part `0 ≤ r < 1` of a float (fuel-based;
terminates early when the remainder hits 0, as Python's shortest-repr
formatting does for values with a finite decimal expansion). -/
def fracDigitsGo : ℕ → ℚ → List Char
  | 0, _ => []
  | fuel + 1, r =>
    if r = 0 then []
    else
      let d := (⌊r * 10⌋).toNat
      Char.ofNat (48 + d) :: fracDigitsGo fuel (r * 10 - d)

/-- Python's `str()` / f-string rendering of a float whose exact value has a
finite decimal expansion (the only values the code formats): sign, integer
part, `"."`, fractional digits — an integral value renders with a trailing
`".0"` (`str(500.0) == "500.0"`).  Python switches to scientific notation
outside `[1e-4, 1e16)`; the values formatted by `vunit` stay inside it. -/
def pyStr (q : ℚ) : String :=
  let sign := if q < 0 then "-" else ""
  let a := |q|
  let ip := (⌊a⌋).toNat
  let ds := fracDigitsGo 17 (a - (ip : ℚ))
  sign ++ natToStr ip ++ "." ++ (if ds.isEmpty then "0" else ⟨ds⟩)

/-- The `units`/`factors` table of `vunit` (eelib.py lines 25-31; identical
copy in bodeplot.py lines 54-60). -/
def vunit_table : List (String × ℚ) := [("V", 1), ("mV", 1/1000), ("uV", 1/1000000)]

/-- The loop of `vunit`: return `f"{v / factors[i]}{units[i]}"` for the first
unit with `abs(v) >= factors[i]`, else `"1uV"`. -/
def vunit_go (v : ℚ) : List (String × ℚ) → String
  | [] => "1uV"
  | uf :: rest => if |v| ≥ uf.2 then pyStr (v / uf.2) ++ uf.1 else vunit_go v rest

/-- Embeds `vunit` (eelib.py lines 25-31). -/
def vunit (v : ℚ) : String := vunit_go v vunit_table

/-- The `units`/`factors` table of `hscale` (eelib.py lines 84-92; identical
copy in bodeplot.py lines 44-52). -/
def hscale_units : List (String × ℚ) :=
  [("ns", 1/1000000000), ("us", 1/1000000), ("ms", 1/1000), ("s", 1)]

/-- The inner tuple `(1, 2, 5, 10, 20, 50, 100, 200, 500)` of `hscale`. -/
def hscale_steps : List ℕ := [1, 2, 5, 10, 20, 50, 100, 200, 500]

/-- The candidates scanned by `hscale`'s two nested loops, in iteration
order, each paired with its per-division time in seconds. -/
def hscale_candidates : List (String × ℚ) :=
  hscale_units.flatMap (fun uf => hscale_steps.map (fun j => (natToStr j ++ uf.1, (j : ℚ) * uf.2)))

/-- Embeds `hscale` (eelib.py lines 84-92): with `t = 1 / (f * 4)`, return
the first candidate `j * factors[i] > t`, else `"1s"`.  The code returns only
the label string; the pair also records the candidate's numeric per-division
time (1 second for the `"1s"` fallback). -/
def hscale (f : ℚ) : String × ℚ :=
  let t := 1 / (f * 4)
  (hscale_candidates.find? (fun c => decide (t < c.2))).getD ("1s", 1)

/-- Python's `s.startswith(c)` for a single-character prefix. -/
def pyStartsWith (s : String) (c : Char) : Bool :=
  match s.toList with
  | [] => false
  | d :: _ => d = c

/-- All characters are decimal digits. -/
def isDigits (l : List Char) : Bool := l.all (fun c => c.isDigit)

/-- Value of a string of decimal digits. -/
def digitsToNat (l : List Char) : ℕ := l.foldl (fun a c => 10 * a + (c.toNat - 48)) 0

/-- Splits a character list at the first occurrence of `sep`:
returns the segment before it and, if present, the remainder after it. -/
def splitAtChar (sep : Char) : List Char → List Char × Option (List Char)
  | [] => ([], none)
  | c :: rest =>
    if c = sep then ([], some rest)
    else
      let s := splitAtChar sep rest
      (c :: s.1, s.2)

/-- Splits a character list at the first exponent marker `e` or `E`. -/
def splitAtExpChar : List Char → List Char × Option (List Char)
  | [] => ([], none)
  | c :: rest =>
    if c = 'e' ∨ c = 'E' then ([], some rest)
    else
      let s := splitAtExpChar rest
      (c :: s.1, s.2)

/-- Parses an unsigned decimal mantissa `digits[.digits]` (at least one digit;
`"1."` and `".5"` are accepted, as by Python's `float`). -/
def parseMantissa (l : List Char) : Option ℚ :=
  let s := splitAtChar '.' l
  match s.2 with
  | none => if !s.1.isEmpty && isDigits s.1 then some (digitsToNat s.1 : ℚ) else none
  | some fp =>
    if (!s.1.isEmpty || !fp.isEmpty) && isDigits s.1 && isDigits fp then
      some ((digitsToNat s.1 : ℚ) + (digitsToNat fp : ℚ) / (10 : ℚ) ^ fp.length)
    else none

/-- Parses a mantissa with an optional leading sign. -/
def parseSignedMantissa : List Char → Option ℚ
  | [] => none
  | c :: rest =>
    if c = '+' then parseMantissa rest
    else if c = '-' then (parseMantissa rest).map (fun x => -x)
    else parseMantissa (c :: rest)

/-- Parses an unsigned decimal exponent. -/
def parseExpDigits (l : List Char) : Option ℤ :=
  if !l.isEmpty && isDigits l then some (digitsToNat l : ℤ) else none

/-- Parses an exponent with an optional leading sign. -/
def parseSignedExp : List Char → Option ℤ
  | [] => none
  | c :: rest =>
    if c = '+' then parseExpDigits rest
    else if c = '-' then (parseExpDigits rest).map (fun x => -x)
    else parseExpDigits (c :: rest)

/-- Core of Python's `float(s)`: `mantissa[(e|E)exponent]`.  Returns `none`
exactly when Python's `float` raises `ValueError` (for the ASCII strings the
device produces; whitespace trimming and `inf`/`nan` forms do not occur). -/
def pyFloatCore (l : List Char) : Option ℚ :=
  let s := splitAtExpChar l
  match parseSignedMantissa s.1, s.2 with
  | some m, none => some m
  | some m, some ex =>
    match parseSignedExp ex with
    | some e => some (m * (10 : ℚ) ^ e)
    | none => none
  | none, _ => none

/-- Python's `float(s)` on the value field of a device response. -/
def pyFloat (s : String) : Option ℚ := pyFloatCore s.toList

/-- A device response as seen through `re.search` against the query's
expected pattern: either the response matches and `g` is the text captured by
`match.group(1)` (the value field), or the response does not match. -/
inductive Echo where
  | matched (g : String)
  | nomatch
deriving DecidableEq

/-- How a measurement routine fails: `exitFail msg code` models
`errprint(msg + ...)` followed by `sys.exit(code)`; `valueError` models an
uncaught `ValueError` raised by `float()` on a non-numeric string. -/
inductive MeasErr where
  | exitFail (msg : String) (code : ℕ)
  | valueError
deriving DecidableEq

/-- Embeds `measure_vpp` (eelib.py lines 108-118): on a match whose value
field does not start with `"*"`, return `float` of it; otherwise
`errprint("Error parsing Vpp: ...")` and `sys.exit(2)`. -/
def measure_vpp (e : Echo) : Except MeasErr ℚ :=
  match e with
  | .matched g =>
    if !(pyStartsWith g '*') then
      match pyFloat g with
      | some v => .ok v
      | none => .error .valueError
    else .error (.exitFail "Error parsing Vpp" 2)
  | .nomatch => .error (.exitFail "Error parsing Vpp" 2)

/-- Embeds `measure_mean` (eelib.py lines 120-130): same shape as
`measure_vpp` with message `"Error parsing V"`. -/
def measure_mean (e : Echo) : Except MeasErr ℚ :=
  match e with
  | .matched g =>
    if !(pyStartsWith g '*') then
      match pyFloat g with
      | some v => .ok v
      | none => .error .valueError
    else .error (.exitFail "Error parsing V" 2)
  | .nomatch => .error (.exitFail "Error parsing V" 2)

/-- Embeds `measure_level` (eelib.py lines 132-142): unlike `measure_vpp`
and `measure_mean`, the code calls `float(match.group(1))` with no
`startswith("*")` check, so a sentinel value field reaches `float()` and
raises `ValueError`; only a regex mismatch takes the
`errprint`/`sys.exit(2)` path. -/
def measure_level (e : Echo) : Except MeasErr ℚ :=
  match e with
  | .matched g =>
    match pyFloat g with
    | some v => .ok v
    | none => .error .valueError
  | .nomatch => .error (.exitFail "Error parsing" 2)

/-- Embeds `measure_phase` (eelib.py lines 144-158): on a match, a `"*"`
value field yields phase `0`, otherwise `norm_angle(float(...))`; a mismatch
exits with code 4. -/
def measure_phase (e : Echo) : Except MeasErr ℚ :=
  match e with
  | .matched g =>
    if pyStartsWith g '*' then .ok 0
    else
      match pyFloat g with
      | some x => .ok (norm_angle x)
      | none => .error .valueError
  | .nomatch => .error (.exitFail "Error parsing phase" 4)

/-- The vertical state of a channel: the offset written by `ch:OFST` and the
per-division scale written by `ch:VDIV` (the exact values before the `.5f`
display rounding of the command text). -/
structure VState where
  ofst : ℚ
  vdiv : ℚ
deriving DecidableEq

/-- One iteration of `vautoscale` (eelib.py lines 64-82): query MIN and MAX;
if both match and neither value field starts with `"*"`, set
`OFST = -(vmin + vpp/2)` and `VDIV = vpp / vdiv` where `vpp = vmax - vmin`;
otherwise `errprint` and `sys.exit(1)`. -/
def vautoscale_iter (vdiv : ℚ) (emin emax : Echo) : Except MeasErr VState :=
  match emin, emax with
  | .matched g1, .matched g2 =>
    if !(pyStartsWith g1 '*') && !(pyStartsWith g2 '*') then
      match pyFloat g1, pyFloat g2 with
      | some vmin, some vmax =>
        let vpp := vmax - vmin
        let v0 := vmin + vpp / 2
        .ok ⟨-v0, vpp / vdiv⟩
      | _, _ => .error .valueError
    else .error (.exitFail "Error parsing for vautoscale" 1)
  | _, _ => .error (.exitFail "Error parsing for vautoscale" 1)

/-- Embeds the iteration loop of `vautoscale` (eelib.py lines 64-82; the
same loop with CLI-supplied bounds is autoscale.py lines 39-57): the list
holds the (MIN, MAX) response pair of each iteration in order; the state is
the channel's vertical state, overwritten each successful iteration. -/
def vautoscale (vdiv : ℚ) : List (Echo × Echo) → VState → Except MeasErr VState
  | [], st => .ok st
  | e :: rest, _st =>
    match vautoscale_iter vdiv e.1 e.2 with
    | .ok st2 => vautoscale vdiv rest st2
    | .error err => .error err

/-- Embeds bodeplot.py's `vautoscale` (lines 62-73): on a matching,
non-sentinel PKPK response it writes `ch:VDIV {vunit(vpp / 7.5)}`; the
result carries the argument text of that `VDIV` command.  A sentinel or
mismatch exits with code 1. -/
def bodeplot_vautoscale (e : Echo) : Except MeasErr String :=
  match e with
  | .matched g =>
    if !(pyStartsWith g '*') then
      match pyFloat g with
      | some vpp => .ok (vunit (vpp / (15/2)))
      | none => .error .valueError
    else .error (.exitFail "Error parsing Vpp for autoscale" 1)
  | .nomatch => .error (.exitFail "Error parsing Vpp for autoscale" 1)

/-- The signed-byte reinterpretation in `fetch` (eelib.py line 186):
`if b > 127: b = b - 256`. -/
def toSignedByte (b : ℕ) : ℤ := if 127 < b then (b : ℤ) - 256 else (b : ℤ)

/-- The payload decode loop of `fetch` (eelib.py lines 185-188): each byte
becomes `b * (vscale / 25) - voffset` after signed reinterpretation. -/
def wf_decode (vscale voffset : ℚ) (payload : List ℕ) : List ℚ :=
  payload.map (fun b => ((toSignedByte b : ℤ) : ℚ) * (vscale / 25) - voffset)

/-- Python's `f"{n:08d}"`-style zero padding (for nonnegative `n`). -/
def zeroPad (w : ℕ) (n : ℕ) : String :=
  let s := natToStr n
  ⟨List.replicate (w - s.length) '0'⟩ ++ s

/-- The expected batch header of `fetch` (eelib.py line 182),
`f"{ch}:WF DAT2,#90{remaining:08d}"`, as its list of ASCII byte values (the
code compares `rawdata[0:len(header)].decode()` against it; for ASCII text
that equals a byte-wise comparison). -/
def wf_header (ch : String) (remaining : ℕ) : List ℕ :=
  (ch ++ ":WF DAT2,#90" ++ zeroPad 8 remaining).toList.map (fun c => c.toNat)

/-- Number of iterations of `for i in range(0, n, 20)`. -/
def numBatches (n : ℕ) : ℕ := (n + 19) / 20

/-- The batch loop of `fetch` (eelib.py lines 176-192), processing the
remaining `k` batches starting at sample offset `i`.  `device i` is the raw
byte string the scope returns for the fetch request at offset `i`.  A header
mismatch is `errprint`/`sys.exit(6)`, modelled as `none`. -/
def fetch_go (ch : String) (vscale voffset : ℚ) (n : ℕ) (device : ℕ → List ℕ) :
    ℕ → ℕ → Option (List ℚ)
  | 0, _ => some []
  | k + 1, i =>
    let remaining := min 20 (n - i + 1)
    let hdr := wf_header ch remaining
    let raw := device i
    if raw.take hdr.length = hdr then
      match fetch_go ch vscale voffset n device k (i + 20) with
      | some rest =>
        some (wf_decode vscale voffset ((raw.drop hdr.length).dropLast.dropLast) ++ rest)
      | none => none
    else none

/-- Embeds `fetch` (eelib.py lines 171-193).  `vscale`/`voffset` are the
channel settings queried immediately before the loop, `n` the device-reported
sample count (`nsamples`). -/
def fetch (ch : String) (vscale voffset : ℚ) (n : ℕ) (device : ℕ → List ℕ) :
    Option (List ℚ) :=
  fetch_go ch vscale voffset n device (numBatches n) 0

/-- The `WFSU SP,1,NP,{batchsize},FP,{i}` requests issued by `fetch`'s loop,
as (requested point count, start offset) pairs in issue order — the point
count requested is the constant `batchsize = 20` for every batch. -/
def fetch_requests (n : ℕ) : List (ℕ × ℕ) :=
  (List.range (numBatches n)).map (fun j => (20, 20 * j))

/-- A gate-marker command: `MEGA t` positions the measure-gate start marker,
`MEGB t` the end marker (curvetracer.py). -/
inductive GateCmd where
  | mega (t : ℚ)
  | megb (t : ℚ)
deriving DecidableEq

/-- Embeds `position_gate_init` (curvetracer.py lines 29-31): writes
`MEGA {t - dt/2}s` and then `MEGB {t + dt/2}s`, in that order. -/
def position_gate_init (t dt : ℚ) : List GateCmd :=
  [.mega (t - dt / 2), .megb (t + dt / 2)]

/-- Embeds `position_gate` (curvetracer.py lines 33-35): writes
`MEGB {t + dt/2}s` and then `MEGA {t - dt/2}s`, in that order. -/
def position_gate (t dt : ℚ) : List GateCmd :=
  [.megb (t + dt / 2), .mega (t - dt / 2)]

/-- The command sequence is exactly: end marker first, then start marker. -/
def setsEndThenStart : List GateCmd → Bool
  | [GateCmd.megb _, GateCmd.mega _] => true
  | _ => false

/-- The command sequence is exactly: start marker first, then end marker. -/
def setsStartThenEnd : List GateCmd → Bool
  | [GateCmd.mega _, GateCmd.megb _] => true
  | _ => false

/-! ### Properties of `norm_angle` (claim C4) -/

theorem pymod_360_nonneg (x : ℚ) : 0 ≤ pymod x 360 := by
  unfold pymod
  have h := Int.floor_le (x / 360)
  have h360 : (360 : ℚ) * (x / 360) = x := by ring
  nlinarith

theorem pymod_360_lt (x : ℚ) : pymod x 360 < 360 := by
  unfold pymod
  have h := Int.lt_floor_add_one (x / 360)
  have h360 : (360 : ℚ) * (x / 360) = x := by ring
  nlinarith

theorem norm_angle_range (x : ℚ) : -180 ≤ norm_angle x ∧ norm_angle x < 180 := by
  have h0 := pymod_360_nonneg x
  have h1 := pymod_360_lt x
  unfold norm_angle
  dsimp only
  constructor <;> split_ifs <;> linarith

theorem norm_angle_id_of_range (v : ℚ) (h1 : -180 ≤ v) (h2 : v < 180) :
    norm_angle v = v := by
  unfold norm_angle pymod
  dsimp only
  rcases le_or_lt 0 v with hv | hv
  · have hf : ⌊v / 360⌋ = 0 := by
      rw [Int.floor_eq_zero_iff]
      exact ⟨div_nonneg hv (by norm_num), (div_lt_one (by norm_num)).mpr (by linarith)⟩
    rw [hf]
    push_cast
    rw [if_neg (by linarith), if_neg (by linarith)]
    ring
  · have hf : ⌊v / 360⌋ = -1 := by
      rw [Int.floor_eq_iff]
      push_cast
      constructor
      · rw [le_div_iff₀ (by norm_num : (0:ℚ) < 360)]
        linarith
      · rw [div_lt_iff₀ (by norm_num : (0:ℚ) < 360)]
        linarith
    rw [hf]
    push_cast
    rw [if_pos (by linarith)]
    ring

/-- C4 (amended): `norm_angle` is idempotent and maps every rational into
the half-open interval `[-180, 180)` (not `(-180, 180]` as claimed — the
code's own docstring says `[-180, 180[`), and `norm_angle 240 = -120`,
`norm_angle (-200) = 160`. -/
theorem C4_norm_angle_amended :
    (∀ x : ℚ, norm_angle (norm_angle x) = norm_angle x ∧
      -180 ≤ norm_angle x ∧ norm_angle x < 180) ∧
    norm_angle 240 = -120 ∧ norm_angle (-200) = 160 := by
  refine ⟨fun x => ?_, by with_unfolding_all decide, by with_unfolding_all decide⟩
  obtain ⟨hl, hu⟩ := norm_angle_range x
  exact ⟨norm_angle_id_of_range _ hl hu, hl, hu⟩

/-- C4 (counterexample): at input 180 the code returns `-180`, which lies
outside the claimed codomain `(-180, 180]`. -/
theorem C4_counterexample :
    norm_angle 180 = -180 ∧ ¬ (-180 < norm_angle 180 ∧ norm_angle 180 ≤ 180) := by
  with_unfolding_all decide

/-! ### Properties of `step` (claim C1) -/

theorem pyRound_pos {x : ℚ} (hx : 1 ≤ x) : 0 < pyRound x := by
  have h1 : 1 ≤ ⌊x⌋ := Int.le_floor.mpr (by exact_mod_cast hx)
  unfold pyRound
  dsimp only
  split_ifs <;> omega

/-- C1 (amended): for every frequency `f ≥ 10` and quality `q ∈ [1, 10]`,
`step f q > 0`.  (The original bound `f > 0` fails: for `1 ≤ f < 10` the
step is `round(1/q)`, which is 0 for every `q ≥ 2` — and for `f < 1` the
step can be 0 even at `q = 1`.) -/
theorem C1_step_positive_amended (f q : ℚ) (hf : 10 ≤ f) (hq1 : 1 ≤ q)
    (hq10 : q ≤ 10) : 0 < step f q := by
  unfold step
  have hf0 : (0 : ℚ) < f := by linarith
  have hp : 1 ≤ Int.log 10 f := by
    have h10 : Int.log 10 ((10 : ℚ) ^ (1 : ℤ)) = 1 := Int.log_zpow (by norm_num) 1
    calc (1 : ℤ) = Int.log 10 ((10 : ℚ) ^ (1 : ℤ)) := h10.symm
      _ ≤ Int.log 10 f := Int.log_mono_right (by norm_num) (by rwa [zpow_one])
  have hz : (10 : ℚ) ≤ (10 : ℚ) ^ Int.log 10 f := by
    calc (10 : ℚ) = 10 ^ (1 : ℤ) := (zpow_one 10).symm
      _ ≤ 10 ^ Int.log 10 f := zpow_le_zpow_right₀ (by norm_num) hp
  apply pyRound_pos
  rw [one_le_div (by linarith)]
  linarith

/-- C1 (witness): at `f = 10`, `q = 1` the hypotheses hold and the step is
positive. -/
theorem C1_step_positive_witness :
    (10 : ℚ) ≤ 10 ∧ (1 : ℚ) ≤ 1 ∧ (1 : ℚ) ≤ 10 ∧ 0 < step 10 1 :=
  ⟨le_rfl, le_rfl, by norm_num,
    C1_step_positive_amended 10 1 le_rfl le_rfl (by norm_num)⟩

/-- C1 (counterexample): `f = 1 > 0` and `q = 10 ∈ [1, 10]`, yet
`step 1 10 = round(10^0 / 10) = round(0.1) = 0` is not positive. -/
theorem C1_counterexample :
    (0 : ℚ) < 1 ∧ (1 : ℚ) ≤ 10 ∧ (10 : ℚ) ≤ 10 ∧ ¬ 0 < step 1 10 := by
  with_unfolding_all decide

/-! ### Properties of the gate controller (claim C8) -/

/-- C8 (amended): `position_gate` sets the gate end marker and then the
start marker, but `position_gate_init` sets the start marker and then the
end marker (not end-before-start as claimed); both place the start marker at
`center - width/2` and the end marker at `center + width/2`. -/
theorem C8_gate_order_amended (t dt : ℚ) :
    setsEndThenStart (position_gate t dt) = true ∧
    setsStartThenEnd (position_gate_init t dt) = true ∧
    position_gate t dt = [.megb (t + dt / 2), .mega (t - dt / 2)] ∧
    position_gate_init t dt = [.mega (t - dt / 2), .megb (t + dt / 2)] :=
  ⟨rfl, rfl, rfl, rfl⟩

/-- C8 (counterexample): `position_gate_init` emits the start marker
(`MEGA`) first — at `(0, 2)` its command sequence is
`[MEGA (-1), MEGB 1]`, not end-before-start. -/
theorem C8_counterexample :
    position_gate_init 0 2 = [.mega (-1), .megb 1] ∧
    setsEndThenStart (position_gate_init 0 2) = false := by
  with_unfolding_all decide

/-! ### Properties of `vunit` (claims C9, C10) -/

/-- C9 (amended): `vunit (2.5e-3) = "2.5mV"`, but a magnitude of `0.5`
renders as `"500.0mV"` — Python's float formatting keeps the trailing
`".0"` of `str(0.5 / 0.001) == str(500.0)`. -/
theorem C9_vunit_amended :
    vunit (1/400) = "2.5mV" ∧ vunit (1/2) = "500.0mV" := by
  with_unfolding_all decide

/-- C9 (counterexample): `vunit (1/2)` is `"500.0mV"`, not the claimed
`"500mV"`. -/
theorem C9_counterexample :
    vunit (1/2) = "500.0mV" ∧ vunit (1/2) ≠ "500mV" := by
  with_unfolding_all decide

theorem vunit_small (v : ℚ) (hv : |v| < 1/1000000) : vunit v = "1uV" := by
  have h0 : (0 : ℚ) ≤ |v| := abs_nonneg v
  unfold vunit vunit_table
  rw [vunit_go, if_neg (by simp only [ge_iff_le]; linarith)]
  rw [vunit_go, if_neg (by simp only [ge_iff_le]; linarith)]
  rw [vunit_go, if_neg (by simp only [ge_iff_le]; linarith)]
  rfl

/-- C10: every magnitude below 1 µV — zero and negative values included —
renders as the constant string `"1uV"`, and bodeplot's `vautoscale` issues a
`VDIV` command with argument `"1uV"` whenever its parsed peak-to-peak value
is below `7.5 µV` (so that `vpp / 7.5` is below 1 µV). -/
theorem C10_vunit_near_zero :
    (∀ v : ℚ, |v| < 1/1000000 → vunit v = "1uV") ∧
    (∀ (g : String) (vpp : ℚ), pyStartsWith g '*' = false → pyFloat g = some vpp →
      |vpp| < 15/2000000 → bodeplot_vautoscale (.matched g) = .ok "1uV") := by
  refine ⟨fun v hv => vunit_small v hv, fun g vpp hg hparse hsmall => ?_⟩
  have hv : |vpp / (15/2)| < 1/1000000 := by
    rw [abs_div, div_lt_iff₀ (by norm_num : (0:ℚ) < |(15:ℚ)/2|)]
    calc |vpp| < 15/2000000 := hsmall
      _ = 1/1000000 * |(15:ℚ)/2| := by
          rw [abs_of_pos (by norm_num : (0:ℚ) < 15/2)]
          norm_num
  simp only [bodeplot_vautoscale, hg, hparse, Bool.not_false, if_true,
    vunit_small _ hv]

/-- C10 (witness): at `v = -1/2000000` (negative, below 1 µV) `vunit` gives
`"1uV"`, and a parsed peak-to-peak of 0 makes bodeplot's `vautoscale` write
`VDIV 1uV`. -/
theorem C10_vunit_near_zero_witness :
    |(-1/2000000 : ℚ)| < 1/1000000 ∧ vunit (-1/2000000) = "1uV" ∧
    pyStartsWith "0.0" '*' = false ∧ pyFloat "0.0" = some 0 ∧
    bodeplot_vautoscale (.matched "0.0") = .ok "1uV" := by
  have habs : |(-1/2000000 : ℚ)| < 1/1000000 := by with_unfolding_all decide
  have habs0 : |(0 : ℚ)| < 15/2000000 := by norm_num
  exact ⟨habs, C10_vunit_near_zero.1 (-1/2000000) habs, by decide,
    by with_unfolding_all decide,
    C10_vunit_near_zero.2 "0.0" 0 (by decide) (by with_unfolding_all decide) habs0⟩

/-! ### Sentinel handling of the measurement extractors (claim C3) -/

theorem isDigits_star_cons (l : List Char) : isDigits ('*' :: l) = false := by
  unfold isDigits
  rw [List.all_cons, show ('*').isDigit = false from by decide, Bool.false_and]

theorem parseMantissa_star (l : List Char) : parseMantissa ('*' :: l) = none := by
  unfold parseMantissa
  have hs : splitAtChar '.' ('*' :: l) =
      ('*' :: (splitAtChar '.' l).1, (splitAtChar '.' l).2) := by
    rw [splitAtChar, if_neg (by decide)]
  rw [hs]
  cases h2 : (splitAtChar '.' l).2 <;> simp [isDigits_star_cons]

theorem parseSignedMantissa_star (l : List Char) :
    parseSignedMantissa ('*' :: l) = none := by
  rw [parseSignedMantissa, if_neg (by decide), if_neg (by decide)]
  exact parseMantissa_star l

theorem splitAtExpChar_star (l : List Char) :
    splitAtExpChar ('*' :: l) = ('*' :: (splitAtExpChar l).1, (splitAtExpChar l).2) := by
  rw [splitAtExpChar, if_neg (by decide)]

theorem pyFloatCore_star (l : List Char) : pyFloatCore ('*' :: l) = none := by
  unfold pyFloatCore
  rw [splitAtExpChar_star]
  dsimp only
  rw [parseSignedMantissa_star]

/-- A value field reported with the device's `"*"` sentinel marker never
parses as a float: Python's `float()` raises `ValueError` on it. -/
theorem pyFloat_star (s : String) (h : pyStartsWith s '*' = true) :
    pyFloat s = none := by
  unfold pyFloat
  unfold pyStartsWith at h
  cases hl : s.toList with
  | nil => rw [hl] at h; simp at h
  | cons c rest =>
    rw [hl] at h
    simp only [decide_eq_true_eq] at h
    subst h
    exact pyFloatCore_star rest

/-- C3 (amended): on a sentinel (`"*"`-prefixed) value field, `measure_vpp`
and `measure_mean` abort with their measurement-kind-specific parse error
(exit 2 with messages `"Error parsing Vpp"` / `"Error parsing V"`), and
`measure_phase` returns 0° — but `measure_level` has no sentinel check and
instead fails with an uncaught `ValueError` from `float()`, not with its
measurement-kind-specific parse error. -/
theorem C3_sentinel_amended (s : String) (h : pyStartsWith s '*' = true) :
    measure_vpp (.matched s) = .error (.exitFail "Error parsing Vpp" 2) ∧
    measure_mean (.matched s) = .error (.exitFail "Error parsing V" 2) ∧
    measure_level (.matched s) = .error .valueError ∧
    measure_phase (.matched s) = .ok 0 := by
  refine ⟨?_, ?_, ?_, ?_⟩ <;>
    simp [measure_vpp, measure_mean, measure_level, measure_phase, h, pyFloat_star s h]

/-- C3 (witness): the amended behaviour at the concrete sentinel response
`"****"`. -/
theorem C3_sentinel_witness :
    pyStartsWith "****" '*' = true ∧
    (measure_vpp (.matched "****") = .error (.exitFail "Error parsing Vpp" 2) ∧
      measure_mean (.matched "****") = .error (.exitFail "Error parsing V" 2) ∧
      measure_level (.matched "****") = .error .valueError ∧
      measure_phase (.matched "****") = .ok 0) :=
  ⟨by decide, C3_sentinel_amended "****" (by decide)⟩

/-- C3 (counterexample): on the sentinel response `"****"`,
`measure_level` does not abort with its measurement-kind-specific parse
error (`"Error parsing"`, exit 2): it raises `ValueError` instead. -/
theorem C3_counterexample :
    measure_level (.matched "****") = .error .valueError ∧
    measure_level (.matched "****") ≠ .error (.exitFail "Error parsing" 2) := by
  with_unfolding_all decide

/-! ### Properties of `hscale` (claim C5) -/

set_option maxRecDepth 200000 in
theorem hscale_candidates_sorted :
    hscale_candidates.Pairwise (fun a b => a.2 < b.2) := by
  with_unfolding_all decide

theorem find?_least {t : ℚ} {l : List (String × ℚ)} {c : String × ℚ}
    (hs : l.Pairwise (fun a b => a.2 < b.2))
    (hf : l.find? (fun c => decide (t < c.2)) = some c) :
    t < c.2 ∧ ∀ d ∈ l, t < d.2 → c.2 ≤ d.2 := by
  induction l with
  | nil => simp at hf
  | cons a l ih =>
    rw [List.pairwise_cons] at hs
    by_cases hp : t < a.2
    · rw [List.find?_cons_of_pos _ (by simpa using hp)] at hf
      injection hf with hf
      subst hf
      refine ⟨hp, fun d hd _ => ?_⟩
      rcases List.mem_cons.mp hd with rfl | hd
      · exact le_rfl
      · exact (hs.1 d hd).le
    · rw [List.find?_cons_of_neg _ (by simpa using hp)] at hf
      obtain ⟨h1, h2⟩ := ih hs.2 hf
      refine ⟨h1, fun d hd hdt => ?_⟩
      rcases List.mem_cons.mp hd with rfl | hd
      · exact absurd hdt hp
      · exact h2 d hd hdt

set_option maxRecDepth 200000 in
theorem hscale_find_some {t : ℚ} (ht : t < 500) :
    ∃ c, hscale_candidates.find? (fun c => decide (t < c.2)) = some c := by
  cases hf : hscale_candidates.find? (fun c => decide (t < c.2)) with
  | some c => exact ⟨c, rfl⟩
  | none =>
    exfalso
    have hmem : ("500s", (500 : ℚ)) ∈ hscale_candidates := by
      with_unfolding_all decide
    have h := List.find?_eq_none.mp hf _ hmem
    simp only [decide_eq_true_eq] at h
    exact h ht

theorem hscale_spec (f : ℚ) (ht : 1 / (f * 4) < 500) :
    hscale f ∈ hscale_candidates ∧ 1 / (f * 4) < (hscale f).2 ∧
    ∀ c ∈ hscale_candidates, 1 / (f * 4) < c.2 → (hscale f).2 ≤ c.2 := by
  obtain ⟨c, hc⟩ := hscale_find_some ht
  have hmem := List.mem_of_find?_eq_some hc
  have hp := List.find?_some hc
  simp only [decide_eq_true_eq] at hp
  obtain ⟨h1, h2⟩ := find?_least hscale_candidates_sorted hc
  have hh : hscale f = c := by
    unfold hscale
    dsimp only
    rw [hc]
    rfl
  rw [hh]
  exact ⟨hmem, h1, h2⟩

/-- C5 (amended): for every frequency `f > 0` whose quarter-period
`1/(4f)` is below the top of the ladder (500 s), `hscale` returns the
smallest ladder entry exceeding `1/(4f)`, and on that domain the selected
per-division time is non-increasing in `f`.  (For `f ≤ 1/2000` no ladder
entry exceeds `1/(4f)`; the code then falls back to `"1s"`, which breaks
both parts of the original claim.) -/
theorem C5_hscale_amended :
    (∀ f : ℚ, 0 < f → 1 / (f * 4) < 500 →
      1 / (f * 4) < (hscale f).2 ∧
      ∀ c ∈ hscale_candidates, 1 / (f * 4) < c.2 → (hscale f).2 ≤ c.2) ∧
    (∀ f₁ f₂ : ℚ, 0 < f₁ → f₁ ≤ f₂ → 1 / (f₁ * 4) < 500 →
      (hscale f₂).2 ≤ (hscale f₁).2) := by
  constructor
  · intro f _ ht
    exact ⟨(hscale_spec f ht).2.1, (hscale_spec f ht).2.2⟩
  · intro f₁ f₂ h1 h12 ht1
    have htle : 1 / (f₂ * 4) ≤ 1 / (f₁ * 4) := by
      apply one_div_le_one_div_of_le (by linarith)
      linarith
    have ht2 : 1 / (f₂ * 4) < 500 := lt_of_le_of_lt htle ht1
    obtain ⟨hm1, hgt1, -⟩ := hscale_spec f₁ ht1
    obtain ⟨-, -, hmin2⟩ := hscale_spec f₂ ht2
    exact hmin2 _ hm1 (lt_of_le_of_lt htle hgt1)

/-- C5 (witness): at `f = 1000` Hz the selected per-division time exceeds
the quarter period, and going to `f = 2000` Hz does not increase it. -/
theorem C5_hscale_amended_witness :
    (0 : ℚ) < 1000 ∧ 1 / ((1000 : ℚ) * 4) < 500 ∧
    1 / ((1000 : ℚ) * 4) < (hscale 1000).2 ∧ (hscale 2000).2 ≤ (hscale 1000).2 :=
  ⟨by norm_num, by norm_num,
    (C5_hscale_amended.1 1000 (by norm_num) (by norm_num)).1,
    C5_hscale_amended.2 1000 2000 (by norm_num) (by norm_num) (by norm_num)⟩

set_option maxRecDepth 400000 in
/-- C5 (counterexample): at `f = 1/4000 > 0` the quarter period is 1000 s;
every ladder entry is at most 500 s, so the code falls back to `"1s"` and
the returned per-division time does not exceed `1/(4f)`. -/
theorem C5_counterexample :
    (0 : ℚ) < 1/4000 ∧ hscale (1/4000) = ("1s", 1) ∧
    ¬ 1 / ((1/4000 : ℚ) * 4) < (hscale (1/4000)).2 := by
  have h : hscale (1/4000) = ("1s", 1) := by
    unfold hscale
    with_unfolding_all decide
  refine ⟨by norm_num, h, ?_⟩
  rw [h]
  norm_num

/-! ### Properties of the waveform payload decode (claim C7) -/

/-- C7: the payload decode of `fetch` turns each batch of `N` bytes into
`N` voltages; each byte is reinterpreted as a signed 8-bit sample
(`b - 256` when `b > 127`) and converted as `sample * (vscale/25) - voffset`;
in particular byte 127 gives `127*(vscale/25) - voffset` and byte 128 gives
`-128*(vscale/25) - voffset`. -/
theorem C7_decode (vscale voffset : ℚ) (bytes : List ℕ) :
    (wf_decode vscale voffset bytes).length = bytes.length ∧
    wf_decode vscale voffset [127] = [(127 : ℚ) * (vscale / 25) - voffset] ∧
    wf_decode vscale voffset [128] = [(-128 : ℚ) * (vscale / 25) - voffset] ∧
    (∀ b : ℕ, 127 < b →
      wf_decode vscale voffset [b] = [((b : ℚ) - 256) * (vscale / 25) - voffset]) := by
  refine ⟨List.length_map _ _, ?_, ?_, ?_⟩
  · simp [wf_decode, toSignedByte]
  · simp [wf_decode, toSignedByte]
    norm_num
  · intro b hb
    simp only [wf_decode, toSignedByte, if_pos hb, List.map_cons, List.map_nil]
    push_cast
    ring_nf

/-- C7 (witness): byte 130 (> 127) decodes through the signed wrap. -/
theorem C7_decode_witness :
    127 < 130 ∧
    wf_decode 25 0 [130] = [((130 : ℚ) - 256) * ((25 : ℚ) / 25) - 0] :=
  ⟨by norm_num, (C7_decode 25 0 [130]).2.2.2 130 (by norm_num)⟩

/-! ### Properties of `vautoscale` (claim C6) -/

theorem vautoscale_iter_good {vdiv : ℚ} {s1 s2 : String} {vmin vmax : ℚ}
    (h1 : pyFloat s1 = some vmin) (h2 : pyFloat s2 = some vmax)
    (g1 : pyStartsWith s1 '*' = false) (g2 : pyStartsWith s2 '*' = false) :
    vautoscale_iter vdiv (.matched s1) (.matched s2)
      = .ok ⟨-(vmin + (vmax - vmin) / 2), (vmax - vmin) / vdiv⟩ := by
  simp [vautoscale_iter, g1, g2, h1, h2]

theorem vautoscale_fixed {vdiv : ℚ} {e : Echo × Echo} {tgt : VState}
    (hit : vautoscale_iter vdiv e.1 e.2 = .ok tgt) :
    ∀ k : ℕ, 1 ≤ k → ∀ st : VState,
      vautoscale vdiv (List.replicate k e) st = .ok tgt := by
  intro k
  induction k with
  | zero => intro h; exact absurd h (by omega)
  | succ k ih =>
    intro _ st
    rw [List.replicate_succ]
    simp only [vautoscale, hit]
    cases k with
    | zero => simp [vautoscale]
    | succ m => exact ih (by omega) tgt

/-- C6: each `vautoscale` iteration with valid MIN/MAX responses sets
`OFST = -(vmin + (vmax - vmin)/2)` and `VDIV = (vmax - vmin)/vdiv`, so for a
channel stably reporting midpoint `M` and peak-to-peak `P` the state after
any positive number of iterations is offset `-M`, scale `P/vdiv`; a sentinel
in either the MIN or the MAX response aborts with the autoscale failure exit
(code 1) instead. -/
theorem C6_vautoscale (P M vdiv : ℚ) (k : ℕ) (s1 s2 : String) (st : VState)
    (hk : 1 ≤ k)
    (h1 : pyFloat s1 = some (M - P / 2)) (h2 : pyFloat s2 = some (M + P / 2))
    (g1 : pyStartsWith s1 '*' = false) (g2 : pyStartsWith s2 '*' = false) :
    vautoscale vdiv (List.replicate k (Echo.matched s1, Echo.matched s2)) st
      = .ok ⟨-M, P / vdiv⟩ ∧
    (∀ (t1 : String) (e2 : Echo) (rest : List (Echo × Echo)) (st2 : VState),
      pyStartsWith t1 '*' = true →
      vautoscale vdiv ((Echo.matched t1, e2) :: rest) st2
        = .error (.exitFail "Error parsing for vautoscale" 1)) ∧
    (∀ (e1 : Echo) (t2 : String) (rest : List (Echo × Echo)) (st2 : VState),
      pyStartsWith t2 '*' = true →
      vautoscale vdiv ((e1, Echo.matched t2) :: rest) st2
        = .error (.exitFail "Error parsing for vautoscale" 1)) := by
  refine ⟨?_, ?_, ?_⟩
  · have hit := @vautoscale_iter_good vdiv s1 s2 _ _ h1 h2 g1 g2
    have htgt : (⟨-((M - P / 2) + ((M + P / 2) - (M - P / 2)) / 2),
        ((M + P / 2) - (M - P / 2)) / vdiv⟩ : VState) = ⟨-M, P / vdiv⟩ := by
      have ha : -((M - P / 2) + ((M + P / 2) - (M - P / 2)) / 2) = -M := by ring
      have hb : (M + P / 2) - (M - P / 2) = P := by ring
      rw [ha, hb]
    rw [htgt] at hit
    exact vautoscale_fixed hit k hk st
  · intro t1 e2 rest st2 hstar
    cases e2 <;> simp [vautoscale, vautoscale_iter, hstar]
  · intro e1 t2 rest st2 hstar
    cases e1 <;> simp [vautoscale, vautoscale_iter, hstar]

/-- C6 (witness): two iterations on a channel stably reporting
MIN `-1.0` V and MAX `1.0` V (midpoint 0, peak-to-peak 2) with 7.5 target
divisions end in offset `-0` and scale `2 / 7.5`. -/
theorem C6_vautoscale_witness :
    pyFloat "-1.0" = some ((0 : ℚ) - 2 / 2) ∧
    pyFloat "1.0" = some ((0 : ℚ) + 2 / 2) ∧
    vautoscale (15/2) (List.replicate 2 (Echo.matched "-1.0", Echo.matched "1.0")) ⟨0, 1⟩
      = .ok ⟨-0, 2 / (15/2)⟩ :=
  ⟨by with_unfolding_all decide, by with_unfolding_all decide,
    (C6_vautoscale 2 0 (15/2) 2 "-1.0" "1.0" ⟨0, 1⟩ (by omega)
      (by with_unfolding_all decide) (by with_unfolding_all decide)
      (by decide) (by decide)).1⟩


/-! ### Properties of `fetch` (claim C2) -/

/-- Total sample count accepted by the header checks of `k` consecutive
batches starting at offset `i`: the batch at offset `i` is verified against
`min 20 (n - i + 1)` samples. -/
def expTotal : ℕ → ℕ → ℕ → ℕ
  | 0, _, _ => 0
  | k + 1, i, n => min 20 (n - i + 1) + expTotal k (i + 20) n

theorem expTotal_shift (k : ℕ) : ∀ i n : ℕ, expTotal k (i + 20) n = expTotal k i (n - 20) := by
  induction k with
  | zero => intro i n; rfl
  | succ k ih =>
    intro i n
    unfold expTotal
    have hmin : min 20 (n - (i + 20) + 1) = min 20 ((n - 20) - i + 1) := by omega
    rw [hmin, ih (i + 20) n]

theorem expTotal_closed (n : ℕ) :
    expTotal (numBatches n) 0 n = if n % 20 = 0 then n else n + 1 := by
  induction n using Nat.strong_induction_on with
  | _ n ih =>
    rcases Nat.eq_zero_or_pos n with h0 | h0
    · subst h0
      norm_num [numBatches, expTotal]
    by_cases h20 : n ≤ 20
    · have hb : numBatches n = 1 := by unfold numBatches; omega
      rw [hb]
      simp only [expTotal]
      split_ifs <;> omega
    · push_neg at h20
      have hb : numBatches n = numBatches (n - 20) + 1 := by unfold numBatches; omega
      rw [hb]
      simp only [expTotal]
      rw [expTotal_shift, ih (n - 20) (by omega)]
      split_ifs <;> omega

theorem fetch_go_ok (ch : String) (vs vo : ℚ) (n : ℕ) (device : ℕ → List ℕ) :
    ∀ k i : ℕ,
      (∀ j, j < k → ∃ pl t1 t2,
        device (i + 20 * j) = wf_header ch (min 20 (n - (i + 20 * j) + 1)) ++ pl ++ [t1, t2] ∧
        pl.length = min 20 (n - (i + 20 * j) + 1)) →
      ∃ l, fetch_go ch vs vo n device k i = some l ∧ l.length = expTotal k i n := by
  intro k
  induction k with
  | zero => intro i _; exact ⟨[], rfl, rfl⟩
  | succ k ih =>
    intro i hdev
    obtain ⟨pl, t1, t2, hd, hlen⟩ := hdev 0 (Nat.succ_pos k)
    rw [Nat.mul_zero, Nat.add_zero] at hd hlen
    have hidx : ∀ j : ℕ, i + 20 * (j + 1) = (i + 20) + 20 * j := by intro j; ring
    obtain ⟨rest, hrest, hrlen⟩ := ih (i + 20) (fun j hj => by
      have h := hdev (j + 1) (by omega)
      rw [hidx j] at h
      exact h)
    refine ⟨wf_decode vs vo pl ++ rest, ?_, ?_⟩
    · simp only [fetch_go]
      rw [hd, List.append_assoc, List.take_left, if_pos rfl, hrest, List.drop_left]
      have hconc : pl ++ [t1, t2] = (pl ++ [t1]) ++ [t2] := by simp
      rw [hconc, List.dropLast_concat, List.dropLast_concat]
    · simp only [List.length_append, hrlen]
      unfold wf_decode
      rw [List.length_map, hlen]
      rfl

/-- C2 (amended): `fetch` issues one request per 20-sample batch, each
requesting exactly 20 points; the header of the batch at offset `i` is
verified against a sample count of `min 20 (n - i + 1)` — not against the
requested batch size — and any header mismatch aborts the fetch (exit 6).
When every response carries its expected header and a payload of the
verified length, the concatenated result holds `n` voltages if 20 divides
`n` and `n + 1` voltages otherwise (the `+ 1` comes from the
`n - i + 1` in the verified count of the final partial batch). -/
theorem C2_fetch_amended (ch : String) (vs vo : ℚ) (n : ℕ) (device : ℕ → List ℕ) :
    (∀ r ∈ fetch_requests n, r.1 = 20) ∧
    ((∀ j, j < numBatches n → ∃ pl t1 t2,
        device (20 * j) = wf_header ch (min 20 (n - 20 * j + 1)) ++ pl ++ [t1, t2] ∧
        pl.length = min 20 (n - 20 * j + 1)) →
      ∃ l, fetch ch vs vo n device = some l ∧
        l.length = if n % 20 = 0 then n else n + 1) ∧
    (0 < n →
      (device 0).take (wf_header ch (min 20 (n + 1))).length ≠ wf_header ch (min 20 (n + 1)) →
      fetch ch vs vo n device = none) := by
  refine ⟨?_, ?_, ?_⟩
  · intro r hr
    simp only [fetch_requests, List.mem_map] at hr
    obtain ⟨j, -, rfl⟩ := hr
    rfl
  · intro hdev
    obtain ⟨l, hl, hlen⟩ := fetch_go_ok ch vs vo n device (numBatches n) 0 (fun j hj => by
      have h := hdev j hj
      simpa using h)
    exact ⟨l, hl, by rw [hlen, expTotal_closed]⟩
  · intro hn hmis
    unfold fetch
    obtain ⟨k, hk⟩ : ∃ k, numBatches n = k + 1 := by
      have h1 : 1 ≤ numBatches n := by unfold numBatches; omega
      exact ⟨numBatches n - 1, by omega⟩
    rw [hk]
    simp only [fetch_go, Nat.sub_zero]
    rw [if_neg hmis]

/-- A fully cooperative single-batch device for `n = 1`: its response is the
expected header for `min 20 (1 - 0 + 1) = 2` samples, a 2-byte payload of
zeros, and the 2-byte terminator. -/
def dev1 : ℕ → List ℕ := fun _ => wf_header "C1" 2 ++ [0, 0] ++ [10, 10]

/-- C2 (counterexample): for a device-reported count `n = 1` and a device
that honours the code's own header checks, `fetch` returns 2 voltages, not
exactly `n = 1`. -/
theorem C2_counterexample :
    fetch "C1" 25 0 1 dev1 = some [0, 0] ∧ ([0, 0] : List ℚ).length ≠ 1 := by
  with_unfolding_all decide

/-- C2 (witness): at `n = 1` with the cooperative device the amended length
formula holds (`1 % 20 ≠ 0`, so 2 samples), and every request asks for 20
points. -/
theorem C2_fetch_amended_witness :
    (∀ r ∈ fetch_requests 1, r.1 = 20) ∧
    (∃ l, fetch "C1" 25 0 1 dev1 = some l ∧
      l.length = if 1 % 20 = 0 then 1 else 1 + 1) :=
  ⟨(C2_fetch_amended "C1" 25 0 1 dev1).1,
    (C2_fetch_amended "C1" 25 0 1 dev1).2.1 (fun j hj => by
      have hj0 : j = 0 := by
        have hnb : numBatches 1 = 1 := rfl
        omega
      subst hj0
      exact ⟨[0, 0], 10, 10, by with_unfolding_all decide, by decide⟩)⟩

end Eelib
